import Mathlib

/-!
Shallow embedding of `src/controllers/messages.js` from the
messaging backend (direct-messaging boilerplate).

User, message and conversation identities are modelled as `Nat`.
JavaScript objects whose fields may be absent are modelled with `Option`
fields (`none` = the field is absent from the document).  JavaScript
truthiness on strings ("" is falsy) is modelled explicitly where the code
relies on it.  The Mongo collections are lists (insertion order);
`findOne`/`findById` is `List.find?` (first match), `create` appends.
Errors thrown as `"message|||code"` strings are modelled by the `Err`
structure carrying the message text and the numeric code.
-/

namespace Messages

/-- Conversation lifecycle status (`CONVERSATION_STATUSES`). -/
inductive ConvStatus where
  | pending
  | accepted
  | rejected
deriving DecidableEq, Repr

/-- Message status (`MESSAGE_STATUSES`): default SENT, or READ. -/
inductive MsgStatus where
  | sent
  | read
deriving DecidableEq, Repr

/-- An error thrown by the controller: the text before `|||` and the
numeric code after it (400 = InvalidArgument, 404 = NotFound). -/
structure Err where
  msg : String
  code : Nat
deriving DecidableEq, Repr

/-- `ConversationBlocked`: `"Conversation request rejected!|||400"`. -/
def convBlockedErr : Err := ⟨"Conversation request rejected!", 400⟩

/-- `"Please enter conversation id!|||400"` thrown by `getMessages`. -/
def noConversationErr : Err := ⟨"Please enter conversation id!", 400⟩

/-- `"Please enter message id!|||400"` thrown by `deleteMessage`. -/
def noMessageIdErr : Err := ⟨"Please enter message id!", 400⟩

/-- `"Please enter valid message id!|||400"` thrown by `deleteMessage`
when `findByIdAndDelete` matches no row. -/
def invalidMessageIdErr : Err := ⟨"Please enter valid message id!", 400⟩

/-- An attachment as it arrives in the request (a multer file object):
`path`, `filename` and `mimetype` fields; `""` models an absent (falsy)
field. -/
structure AttachIn where
  path : String
  filename : String
  mimetype : String
deriving DecidableEq, Repr

/-- A stored attachment entry: `{ path, type }` as pushed by `addMessage`. -/
structure StoredAttachment where
  path : String
  type : String
deriving DecidableEq, Repr

/-- A stored message document. -/
structure Message where
  id : Nat
  userFrom : Option Nat
  userTo : Option Nat
  conversation : Option Nat
  text : Option String
  attachments : Option (List StoredAttachment)
  status : MsgStatus
  createdAt : Nat
deriving DecidableEq, Repr

/-- A stored conversation document.  `status` defaults to PENDING at
creation; `lastMessage` is absent until the first message is sent. -/
structure Conversation where
  id : Nat
  userFrom : Nat
  userTo : Nat
  status : ConvStatus
  lastMessage : Option Nat
deriving DecidableEq, Repr

/-- A stored user document (the projection the controller touches:
name, image, fcm push tokens). -/
structure User where
  id : Nat
  name : String
  image : String
  fcms : List String
deriving DecidableEq, Repr

/-- The document store: the three collections plus a fresh-identity
counter used for `_id` and `createdAt` of newly created documents. -/
structure St where
  conversations : List Conversation
  messages : List Message
  users : List User
  nextId : Nat
deriving DecidableEq, Repr

/-- JS truthiness of an optional string: `undefined` and `""` are falsy. -/
def strTruthy : Option String → Bool
  | none => false
  | some s => !s.isEmpty

/-- Parameters accepted by `addMessage` (each may be absent). -/
structure AddMessageParams where
  userFrom : Option Nat
  userTo : Option Nat
  text : Option String
  attachments : Option (List AttachIn)
  conversation : Option Nat
deriving Repr

/-- `addMessage`: builds `messageObj` field by field (absent or falsy
inputs are omitted), builds attachment entries only from inputs whose
`path` is truthy, mapping each to `{ path: filename, type: mimetype }`,
and creates the message (status defaults to SENT). -/
def addMessage (st : St) (p : AddMessageParams) : St × Message :=
  let storedText : Option String := if strTruthy p.text then p.text else none
  let storedAtts : Option (List StoredAttachment) :=
    match p.attachments with
    | none => none
    | some ins =>
        some (ins.filterMap fun a =>
          if a.path.isEmpty then none else some ⟨a.filename, a.mimetype⟩)
  let m : Message :=
    { id := st.nextId
      userFrom := p.userFrom
      userTo := p.userTo
      conversation := p.conversation
      text := storedText
      attachments := storedAtts
      status := MsgStatus.sent
      createdAt := st.nextId }
  ({ st with messages := st.messages ++ [m], nextId := st.nextId + 1 }, m)

/-- `deleteMessage`: missing id fails `400`; `findByIdAndDelete` that
matches no row fails `"Please enter valid message id!|||400"`; otherwise
the first row with that id is removed and returned. -/
def deleteMessage (st : St) (message : Option Nat) : Except Err (St × Message) :=
  match message with
  | none => .error noMessageIdErr
  | some i =>
      match st.messages.find? (fun m => m.id == i) with
      | none => .error invalidMessageIdErr
      | some m =>
          .ok ({ st with messages := st.messages.eraseP (fun m => m.id == i) }, m)

/-! ### getMessages -/

/-- Ceiling division, mirroring `$ceil` of `$divide` in the aggregation. -/
def ceilDiv (a b : Nat) : Nat := (a + b - 1) / b

/-- Sort key of the message pipeline: `$sort createdAt: -1`
(newest first). -/
def laterFirst (a b : Message) : Prop := b.createdAt ≤ a.createdAt

instance : DecidableRel laterFirst :=
  fun a b => inferInstanceAs (Decidable (b.createdAt ≤ a.createdAt))

instance : IsTotal Message laterFirst := ⟨fun a b => Nat.le_total b.createdAt a.createdAt⟩

instance : IsTrans Message laterFirst := ⟨fun _ _ _ h1 h2 => Nat.le_trans h2 h1⟩

/-- The `$project` stage stripping `createdAt`, `updatedAt`, `__v`. -/
structure MsgProj where
  id : Nat
  userFrom : Option Nat
  userTo : Option Nat
  conversation : Option Nat
  text : Option String
  attachments : Option (List StoredAttachment)
  status : MsgStatus
deriving DecidableEq, Repr

/-- Strip the bookkeeping fields from a message. -/
def stripMessage (m : Message) : MsgProj :=
  ⟨m.id, m.userFrom, m.userTo, m.conversation, m.text, m.attachments, m.status⟩

/-- Parameters of `getMessages`.  `page`/`limit` are `0` when absent
(JS falsy: `undefined` and `0` behave identically in the code). -/
structure GetMessagesParams where
  conversation : Option Nat
  user1 : Option Nat
  user2 : Option Nat
  page : Nat
  limit : Nat
deriving Repr

/-- The query built by `getMessages`: by conversation id if present, else
by the symmetric user pair, else no valid addressing (`none`). -/
def queryOf (p : GetMessagesParams) : Option (Message → Bool) :=
  match p.conversation with
  | some c => some (fun m => m.conversation == some c)
  | none =>
      match p.user1, p.user2 with
      | some u1, some u2 =>
          some (fun m =>
            (m.userTo == some u1 && m.userFrom == some u2) ||
            (m.userFrom == some u1 && m.userTo == some u2))
      | _, _ => none

/-- Paged result shape `{ data, totalCount, totalPages }`. -/
structure PagedMessages where
  data : List MsgProj
  totalCount : Nat
  totalPages : Nat
deriving DecidableEq, Repr

/-- `if (!limit) limit = 10`: the effective page size. -/
def effLimit (l : Nat) : Nat := if l = 0 then 10 else l

/-- `if (!page) page = 0; if (page) page = page - 1`: the effective
0-indexed page. -/
def effPage (pg : Nat) : Nat := if pg = 0 then 0 else pg - 1

/-- `getMessages`: defaults (`limit`=10 when falsy, requested page
1-indexed), addressing check, `$match`, `$sort createdAt: -1`,
`$project` strip, `$facet` (count + `$skip page*limit` + `$limit`),
`$unwind totalCount` (so an empty match yields the spread defaults
`data=[], totalCount=0, totalPages=0`). -/
def getMessages (st : St) (p : GetMessagesParams) : Except Err PagedMessages :=
  match queryOf p with
  | none => .error noConversationErr
  | some q =>
      let rows := (List.insertionSort laterFirst (st.messages.filter q)).map stripMessage
      if rows.length = 0 then .ok ⟨[], 0, 0⟩
      else .ok ⟨(rows.drop (effPage p.page * effLimit p.limit)).take (effLimit p.limit),
                rows.length, ceilDiv rows.length (effLimit p.limit)⟩

/-! ### getConversations -/

/-- The `$lookup` sub-pipeline projection of the last message:
`text`, `userFrom`, `createdAt`, `attachments.type` (and `_id`). -/
structure LastMsgProj where
  id : Nat
  text : Option String
  userFrom : Option Nat
  createdAt : Nat
  attachmentTypes : Option (List String)
deriving DecidableEq, Repr

/-- Project a message for the `lastMessage` lookup. -/
def projLastMessage (m : Message) : LastMsgProj :=
  ⟨m.id, m.text, m.userFrom, m.createdAt, m.attachments.map (fun l => l.map (·.type))⟩

/-- Resolve a conversation's denormalized `lastMessage` pointer:
`none` when the pointer is absent or dangling (the `$unwind` after the
`$lookup` then drops the conversation). -/
def resolvedLast (st : St) (c : Conversation) : Option Message :=
  c.lastMessage.bind (fun mid => st.messages.find? (fun m => m.id == mid))

/-- `$match` stage of `getConversations`: participant filter only when
`user` is supplied. -/
def matchedConvs (st : St) (user : Option Nat) : List Conversation :=
  match user with
  | some u => st.conversations.filter (fun c => c.userTo == u || c.userFrom == u)
  | none => st.conversations

/-- `$lookup` of `lastMessage` followed by `$unwind` (conversations whose
pointer does not resolve are dropped). -/
def withLastMessage (st : St) (l : List Conversation) : List (Conversation × LastMsgProj) :=
  l.filterMap (fun c => (resolvedLast st c).map (fun m => (c, projLastMessage m)))

/-- Sort key `$sort lastMessage.createdAt: -1`. -/
def lastLaterFirst (a b : Conversation × LastMsgProj) : Prop :=
  b.2.createdAt ≤ a.2.createdAt

instance : DecidableRel lastLaterFirst :=
  fun a b => inferInstanceAs (Decidable (b.2.createdAt ≤ a.2.createdAt))

instance : IsTotal (Conversation × LastMsgProj) lastLaterFirst :=
  ⟨fun a b => Nat.le_total b.2.createdAt a.2.createdAt⟩

instance : IsTrans (Conversation × LastMsgProj) lastLaterFirst :=
  ⟨fun _ _ _ h1 h2 => Nat.le_trans h2 h1⟩

/-- The `$cond` peer projection: when the caller equals the stored
`userTo` the peer is `userFrom`, otherwise `userTo` (an absent `user`
compares unequal, selecting the `else` branch). -/
def peerOf (user : Option Nat) (c : Conversation) : Nat :=
  match user with
  | some u => if c.userTo = u then c.userFrom else c.userTo
  | none => c.userTo

/-- Boolean prefix test on character lists. -/
def isPrefixB : List Char → List Char → Bool
  | [], _ => true
  | _ :: _, [] => false
  | a :: as, b :: bs => a == b && isPrefixB as bs

/-- Boolean substring (contiguous) test on character lists. -/
def isInfixB (sub : List Char) : List Char → Bool
  | [] => isPrefixB sub []
  | b :: bs => isPrefixB sub (b :: bs) || isInfixB sub bs

/-- Case-fold a string to lower case, character by character. -/
def lowerChars (s : String) : List Char :=
  s.data.map Char.toLower

/-- `$regex keyword, $options: "i"`: case-insensitive substring match of
the keyword against the peer's display name. -/
def nameMatches (kw name : String) : Bool :=
  isInfixB (lowerChars kw) (lowerChars name)

/-- One row of the `getConversations` output `data`. -/
structure ConvEntry where
  convId : Nat
  userId : Nat
  userName : String
  userImage : String
  lastMessage : LastMsgProj
deriving DecidableEq, Repr

/-- The user `$lookup` with its `$match` regex sub-stage and name/image
projection, followed by `$unwind` (rows whose peer is missing or fails
the keyword filter are dropped). -/
def entryFor (st : St) (user : Option Nat) (kw : String) (c : Conversation)
    (lm : LastMsgProj) : Option ConvEntry :=
  match st.users.find? (fun x => x.id == peerOf user c) with
  | none => none
  | some x =>
      if nameMatches kw x.name then some ⟨c.id, peerOf user c, x.name, x.image, lm⟩
      else none

/-- Whether a conversation's peer (relative to `user`) exists and passes
the keyword filter. -/
def peerPasses (st : St) (user : Option Nat) (kw : String) (c : Conversation) : Bool :=
  match st.users.find? (fun x => x.id == peerOf user c) with
  | none => false
  | some x => nameMatches kw x.name

/-- The full pre-`$facet` pipeline of `getConversations`. -/
def convEntries (st : St) (user : Option Nat) (kw : String) : List ConvEntry :=
  (List.insertionSort lastLaterFirst (withLastMessage st (matchedConvs st user))).filterMap
    (fun pr => entryFor st user kw pr.1 pr.2)

/-- Parameters of `getConversations` (`page`/`limit` `0` when absent). -/
structure GetConversationsParams where
  user : Option Nat
  q : Option String
  page : Nat
  limit : Nat
deriving Repr

/-- Paged result of `getConversations`. -/
structure PagedConversations where
  data : List ConvEntry
  totalCount : Nat
  totalPages : Nat
deriving DecidableEq, Repr

/-- Whitespace characters stripped by `trim`. -/
def isWSChar (c : Char) : Bool :=
  c == ' ' || c == '\t' || c == '\n' || c == '\r'

/-- Strip leading and trailing whitespace. -/
def trimChars (l : List Char) : List Char :=
  ((l.dropWhile isWSChar).reverse.dropWhile isWSChar).reverse

/-- `const keyword = q ? q.toString().trim() : ""`. -/
def kwOf (q : Option String) : String :=
  match q with
  | some s => ⟨trimChars s.data⟩
  | none => ""

/-- `getConversations`: defaults, optional participant `$match`, the
lookup/unwind/sort/project pipeline, `$facet` and the spread defaults for
an empty result.  The code has no throw path (a missing `user` simply
omits the participant filter). -/
def getConversations (st : St) (p : GetConversationsParams) :
    Except Err PagedConversations :=
  let rows := convEntries st p.user (kwOf p.q)
  if rows.length = 0 then .ok ⟨[], 0, 0⟩
  else .ok ⟨(rows.drop (effPage p.page * effLimit p.limit)).take (effLimit p.limit),
            rows.length, ceilDiv rows.length (effLimit p.limit)⟩

/-! ### send -/

/-- Parameters of `send` (sender, recipient, message content, sender
display name used in the push body). -/
structure SendParams where
  userFrom : Nat
  userTo : Nat
  text : Option String
  attachments : Option (List AttachIn)
  username : String
deriving Repr

/-- The symmetric pair query of `send`:
`(userTo=userFrom ∧ userFrom=userTo) ∨ (userFrom ∧ userTo)`. -/
def convPairQuery (userFrom userTo : Nat) (c : Conversation) : Bool :=
  (c.userTo == userFrom && c.userFrom == userTo) ||
  (c.userFrom == userFrom && c.userTo == userTo)

/-- `conversationsModel.findOne(query)`: first stored match. -/
def findConversation (st : St) (userFrom userTo : Nat) : Option Conversation :=
  st.conversations.find? (convPairQuery userFrom userTo)

/-- `document.save()`: write the document back by id. -/
def saveConv (st : St) (c : Conversation) : St :=
  { st with conversations := st.conversations.map (fun x => if x.id == c.id then c else x) }

/-- Lines 272–295 of the controller: the find-or-create/transition logic
run by `send` before any message write.  PENDING + reply by the stored
`userTo` flips to ACCEPTED and saves; REJECTED throws; otherwise reuse;
no match creates a fresh PENDING conversation. -/
def resolveConversation (st : St) (userFrom userTo : Nat) :
    Except Err (St × Conversation) :=
  match findConversation st userFrom userTo with
  | some c =>
      if c.status = ConvStatus.pending then
        if userFrom = c.userTo then
          let c' := { c with status := ConvStatus.accepted }
          .ok (saveConv st c', c')
        else .ok (st, c)
      else if c.status = ConvStatus.rejected then .error convBlockedErr
      else .ok (st, c)
  | none =>
      let c : Conversation :=
        { id := st.nextId, userFrom := userFrom, userTo := userTo
          status := ConvStatus.pending, lastMessage := none }
      .ok ({ st with conversations := st.conversations ++ [c], nextId := st.nextId + 1 }, c)

/-- Whether each of the three awaited notification transports succeeds
when invoked (the code awaits them with no try/catch). -/
structure FanoutEnv where
  socketOk : Bool
  notifOk : Bool
  pushOk : Bool
deriving Repr

/-- Failure raised by the awaited socket emit. -/
def socketErr : Err := ⟨"socket emit failed", 500⟩

/-- Failure raised by the awaited notification-record insert. -/
def notifErr : Err := ⟨"notification record failed", 500⟩

/-- Failure raised by the awaited firebase push dispatch. -/
def pushErr : Err := ⟨"push dispatch failed", 500⟩

/-- The crash of `userToExists.fcms.forEach` when the recipient lookup
returns no document. -/
def noRecipientErr : Err := ⟨"TypeError: fcms of missing user", 500⟩

/-- Outcome of one `send` call: the store afterwards, the returned value
or propagated exception, and which of the three notification channel
actions were reached. -/
structure SendOutcome where
  state : St
  result : Except Err Message
  socketAttempted : Bool
  notifAttempted : Bool
  pushAttempted : Bool
deriving Repr

/-- The message document persisted by `send` after a successful resolve
(the `addMessage` call with the resolved conversation attached). -/
def persistedMessage (st1 : St) (p : SendParams) (conv : Conversation) : Message :=
  (addMessage st1 ⟨some p.userFrom, some p.userTo, p.text, p.attachments, some conv.id⟩).2

/-- The store after `send` has persisted the message and saved the
conversation's `lastMessage` pointer (lines 297–301). -/
def persistedState (st1 : St) (p : SendParams) (conv : Conversation) : St :=
  let pair := addMessage st1 ⟨some p.userFrom, some p.userTo, p.text, p.attachments, some conv.id⟩
  saveConv pair.1 { conv with lastMessage := some pair.2.id }

/-- `send`: resolve (propagating `ConversationBlocked`), persist the
message, save `lastMessage`, then sequentially await the socket emit, the
durable notification record, the recipient lookup and the firebase push —
each with no catch, so the first failure propagates and the remaining
channel actions are never reached. -/
def send (st : St) (p : SendParams) (env : FanoutEnv) : SendOutcome :=
  match resolveConversation st p.userFrom p.userTo with
  | .error e => ⟨st, .error e, false, false, false⟩
  | .ok (st1, conv) =>
      let message := persistedMessage st1 p conv
      let st3 := persistedState st1 p conv
      if !env.socketOk then ⟨st3, .error socketErr, true, false, false⟩
      else if !env.notifOk then ⟨st3, .error notifErr, true, true, false⟩
      else
        match st3.users.find? (fun u => u.id == p.userTo) with
        | none => ⟨st3, .error noRecipientErr, true, true, true⟩
        | some _ =>
            if !env.pushOk then ⟨st3, .error pushErr, true, true, true⟩
            else ⟨st3, .ok message, true, true, true⟩

/-- Status of the stored conversation with a given id. -/
def convStatusOf (st : St) (i : Nat) : Option ConvStatus :=
  (st.conversations.find? (fun c => c.id == i)).map (·.status)

/-! ### Concrete fixtures used to exercise the operations -/

/-- Example user 1. -/
def alice : User := ⟨1, "Alice", "alice.png", []⟩

/-- Example user 2 (with one registered push token). -/
def bob : User := ⟨2, "Bob", "bob.png", ["tok1"]⟩

/-- Example user 3. -/
def carol : User := ⟨3, "Carol", "carol.png", []⟩

/-- Example user 4. -/
def dave : User := ⟨4, "Dave", "dave.png", []⟩

/-- A store with users but no conversations or messages. -/
def stEmpty : St := ⟨[], [], [alice, bob], 10⟩

/-- A store holding one PENDING conversation initiated by user 1 towards
user 2. -/
def stPending : St := ⟨[⟨0, 1, 2, ConvStatus.pending, none⟩], [], [alice, bob], 10⟩

/-- A store holding one REJECTED conversation between users 1 and 2. -/
def stRejected : St := ⟨[⟨0, 1, 2, ConvStatus.rejected, none⟩], [], [alice, bob], 10⟩

/-- A store holding one ACCEPTED conversation between users 1 and 2. -/
def stAccepted : St := ⟨[⟨0, 1, 2, ConvStatus.accepted, none⟩], [], [alice, bob], 10⟩

/-- First example message of the accepted chat. -/
def msg1 : Message := ⟨100, some 1, some 2, some 0, some "hi", none, MsgStatus.sent, 5⟩

/-- Second (newest) example message of the accepted chat. -/
def msg2 : Message := ⟨101, some 2, some 1, some 0, some "hello", none, MsgStatus.sent, 6⟩

/-- Message of the second example conversation. -/
def msg3 : Message := ⟨102, some 3, some 4, some 1, some "x", none, MsgStatus.sent, 7⟩

/-- A store with one accepted conversation between users 1 and 2 whose
`lastMessage` resolves to `msg2`. -/
def stChat : St := ⟨[⟨0, 1, 2, ConvStatus.accepted, some 101⟩], [msg1, msg2], [alice, bob], 200⟩

/-- A store with two conversations over disjoint user pairs, both with a
resolvable `lastMessage` and existing recipients. -/
def stMulti : St :=
  ⟨[⟨0, 1, 2, ConvStatus.accepted, some 101⟩, ⟨1, 3, 4, ConvStatus.pending, some 102⟩],
   [msg1, msg2, msg3], [alice, bob, carol, dave], 300⟩

/-- All three notification transports succeed. -/
def envAllOk : FanoutEnv := ⟨true, true, true⟩

/-- The socket emit raises; the other two transports would succeed. -/
def envSocketFail : FanoutEnv := ⟨false, true, true⟩

/-- A send from user 1 to user 2. -/
def sendAB : SendParams := ⟨1, 2, some "hi", none, "Alice"⟩

/-- A send (reply) from user 2 to user 1. -/
def sendBA : SendParams := ⟨2, 1, some "yo", none, "Bob"⟩

/-! ## Helper lemmas -/

/-- Replacing the documents carrying a given id and then searching for
that id finds the replacement, provided some document carried the id. -/
theorem find?_map_replace (c : Conversation) :
    ∀ l : List Conversation, (∃ x ∈ l, x.id = c.id) →
      (l.map (fun x => if x.id == c.id then c else x)).find?
        (fun x => x.id == c.id) = some c
  | [], h => by simp at h
  | a :: l, h => by
    by_cases ha : a.id = c.id
    · simp only [List.map_cons, if_pos (beq_iff_eq.mpr ha)]
      exact List.find?_cons_of_pos _ (beq_self_eq_true c.id)
    · have hb : (a.id == c.id) = false := beq_eq_false_iff_ne.mpr ha
      have h' : ∃ x ∈ l, x.id = c.id := by
        obtain ⟨x, hx, hid⟩ := h
        rcases List.mem_cons.mp hx with he | hm
        · exact absurd (he ▸ hid) ha
        · exact ⟨x, hm, hid⟩
      simp only [List.map_cons, hb, if_false]
      rw [List.find?_cons_of_neg _ (by simp [hb]), find?_map_replace c l h']

/-- `saveConv` then looking the document up by its id yields the saved
document, provided a document with that id existed. -/
theorem convStatusOf_saveConv (st : St) (c : Conversation)
    (h : ∃ x ∈ st.conversations, x.id = c.id) :
    convStatusOf (saveConv st c) c.id = some c.status := by
  unfold convStatusOf saveConv
  simp only
  rw [find?_map_replace c st.conversations h]
  rfl

/-- `saveConv` preserves the existence of a document with a given id
when the saved document itself carries that id. -/
theorem exists_id_saveConv (st : St) (c : Conversation) (i : Nat)
    (hc : c.id = i) (h : ∃ x ∈ st.conversations, x.id = i) :
    ∃ x ∈ (saveConv st c).conversations, x.id = i := by
  obtain ⟨x, hx, hid⟩ := h
  refine ⟨if x.id == c.id then c else x, List.mem_map_of_mem _ hx, ?_⟩
  by_cases hxc : (x.id == c.id) = true
  · rw [if_pos hxc]; exact hc
  · rw [if_neg hxc]; exact hid

/-- After a successful resolve, the state `send` leaves behind is the
persisted state, whatever the fan-out does. -/
theorem send_state_ok (st : St) (p : SendParams) (env : FanoutEnv)
    (st1 : St) (conv : Conversation)
    (hres : resolveConversation st p.userFrom p.userTo = .ok (st1, conv)) :
    (send st p env).state = persistedState st1 p conv := by
  unfold send
  rw [hres]
  dsimp only
  split
  · rfl
  split
  · rfl
  split
  · rfl
  split <;> rfl

/-- The conversation handed to the persist step keeps its status in the
stored state: only its `lastMessage` pointer is rewritten. -/
theorem convStatusOf_persistedState (st1 : St) (p : SendParams) (conv : Conversation)
    (h : ∃ x ∈ st1.conversations, x.id = conv.id) :
    convStatusOf (persistedState st1 p conv) conv.id = some conv.status := by
  unfold persistedState
  exact convStatusOf_saveConv _ _ h

/-! ## Claim C1 -/

/-- Claim C1: for every `send` whose resolved conversation (matched
symmetrically over both orderings of the pair) has status REJECTED, the
operation fails with `ConversationBlocked` and the store is unchanged —
no message is created and the conversation's status and `lastMessage`
are untouched (the error is raised before any write). -/
theorem C1_rejected_send_blocked (st : St) (p : SendParams) (env : FanoutEnv)
    (c : Conversation)
    (hfind : findConversation st p.userFrom p.userTo = some c)
    (hrej : c.status = ConvStatus.rejected) :
    (send st p env).result = Except.error convBlockedErr ∧
    (send st p env).state = st := by
  have hres : resolveConversation st p.userFrom p.userTo = .error convBlockedErr := by
    unfold resolveConversation
    rw [hfind]
    dsimp only
    rw [hrej]
    simp
  unfold send
  rw [hres]
  exact ⟨rfl, rfl⟩

/-- Witness for C1 at a concrete store holding a rejected conversation. -/
theorem C1_rejected_send_blocked_witness :
    (send stRejected sendAB envAllOk).result = Except.error convBlockedErr ∧
    (send stRejected sendAB envAllOk).state = stRejected :=
  C1_rejected_send_blocked stRejected sendAB envAllOk
    ⟨0, 1, 2, ConvStatus.rejected, none⟩ rfl rfl

/-! ## Claim C2 -/

/-- Claim C2: for every PENDING conversation found by the symmetric pair
query, a send by the stored `userTo` (the original recipient) leaves the
conversation ACCEPTED in the store; a send by the original initiator
leaves it PENDING; a send into an ACCEPTED conversation leaves it
ACCEPTED.  Together with C1 (REJECTED sends change nothing) these cover
every path, so replying is the only way out of PENDING, and once
ACCEPTED the transition cannot reapply. -/
theorem C2_pending_transition (st : St) (p : SendParams) (env : FanoutEnv)
    (c : Conversation)
    (hfind : findConversation st p.userFrom p.userTo = some c) :
    (c.status = ConvStatus.pending → p.userFrom = c.userTo →
       convStatusOf (send st p env).state c.id = some ConvStatus.accepted) ∧
    (c.status = ConvStatus.pending → p.userFrom ≠ c.userTo →
       convStatusOf (send st p env).state c.id = some ConvStatus.pending) ∧
    (c.status = ConvStatus.accepted →
       convStatusOf (send st p env).state c.id = some ConvStatus.accepted) := by
  have hmem : c ∈ st.conversations := List.mem_of_find?_eq_some hfind
  refine ⟨?_, ?_, ?_⟩
  · intro hpend heq
    have hres : resolveConversation st p.userFrom p.userTo =
        .ok (saveConv st { c with status := ConvStatus.accepted },
             { c with status := ConvStatus.accepted }) := by
      unfold resolveConversation
      rw [hfind]
      dsimp only
      rw [hpend, if_pos rfl, if_pos heq]
    rw [send_state_ok st p env _ _ hres]
    exact convStatusOf_persistedState _ p _
      (exists_id_saveConv st _ c.id rfl ⟨c, hmem, rfl⟩)
  · intro hpend hne
    have hres : resolveConversation st p.userFrom p.userTo = .ok (st, c) := by
      unfold resolveConversation
      rw [hfind]
      dsimp only
      rw [hpend, if_pos rfl, if_neg hne]
    rw [send_state_ok st p env _ _ hres]
    have := convStatusOf_persistedState st p c ⟨c, hmem, rfl⟩
    rw [hpend] at this
    exact this
  · intro hacc
    have hres : resolveConversation st p.userFrom p.userTo = .ok (st, c) := by
      unfold resolveConversation
      rw [hfind]
      dsimp only
      rw [hacc]
      simp
    rw [send_state_ok st p env _ _ hres]
    have := convStatusOf_persistedState st p c ⟨c, hmem, rfl⟩
    rw [hacc] at this
    exact this

/-- Witness for C2 on a concrete PENDING conversation: the recipient's
reply flips it to ACCEPTED, the initiator's second message leaves it
PENDING. -/
theorem C2_pending_transition_witness :
    convStatusOf (send stPending sendBA envAllOk).state 0 = some ConvStatus.accepted ∧
    convStatusOf (send stPending sendAB envAllOk).state 0 = some ConvStatus.pending :=
  ⟨(C2_pending_transition stPending sendBA envAllOk
      ⟨0, 1, 2, ConvStatus.pending, none⟩ rfl).1 rfl rfl,
   (C2_pending_transition stPending sendAB envAllOk
      ⟨0, 1, 2, ConvStatus.pending, none⟩ rfl).2.1 rfl (by decide)⟩

/-! ## Claim C3 -/

/-- The pair query of `send` is symmetric in the two users. -/
theorem convPairQuery_symm (a b : Nat) : convPairQuery b a = convPairQuery a b := by
  funext c
  unfold convPairQuery
  rw [Bool.or_comm]
  congr 1
  · rw [Bool.and_comm]
  · rw [Bool.and_comm]

/-- Claim C3: when no conversation covers the pair yet, the first
resolve creates exactly one conversation, and resolving again — in the
same order or the opposite order — finds that conversation and returns
the same id while creating nothing new. -/
theorem C3_resolve_idempotent (st : St) (a b : Nat)
    (hnone : findConversation st a b = none) :
    ∃ st1 c1, resolveConversation st a b = .ok (st1, c1) ∧
      st1.conversations.length = st.conversations.length + 1 ∧
      (∃ st2 c2, resolveConversation st1 a b = .ok (st2, c2) ∧ c2.id = c1.id ∧
         st2.conversations.length = st1.conversations.length) ∧
      (∃ st3 c3, resolveConversation st1 b a = .ok (st3, c3) ∧ c3.id = c1.id ∧
         st3.conversations.length = st1.conversations.length) := by
  have hq : convPairQuery a b
      ⟨st.nextId, a, b, ConvStatus.pending, none⟩ = true := by
    simp [convPairQuery]
  have hres1 : resolveConversation st a b =
      .ok ({ st with
               conversations :=
                 st.conversations ++ [⟨st.nextId, a, b, ConvStatus.pending, none⟩],
               nextId := st.nextId + 1 },
           ⟨st.nextId, a, b, ConvStatus.pending, none⟩) := by
    unfold resolveConversation
    rw [hnone]
  have hfind1 : findConversation
      { st with
          conversations :=
            st.conversations ++ [⟨st.nextId, a, b, ConvStatus.pending, none⟩],
          nextId := st.nextId + 1 } a b =
      some ⟨st.nextId, a, b, ConvStatus.pending, none⟩ := by
    unfold findConversation at hnone ⊢
    dsimp only
    rw [List.find?_append, hnone]
    simp [hq]
  have hfind2 : findConversation
      { st with
          conversations :=
            st.conversations ++ [⟨st.nextId, a, b, ConvStatus.pending, none⟩],
          nextId := st.nextId + 1 } b a =
      some ⟨st.nextId, a, b, ConvStatus.pending, none⟩ := by
    unfold findConversation at hnone ⊢
    dsimp only
    rw [convPairQuery_symm, List.find?_append, hnone]
    simp [hq]
  refine ⟨_, _, hres1, by simp, ?_, ?_⟩
  · by_cases hab : a = b
    · have hres2 : resolveConversation
          { st with
              conversations :=
                st.conversations ++ [⟨st.nextId, a, b, ConvStatus.pending, none⟩],
              nextId := st.nextId + 1 } a b =
          .ok (saveConv
                 { st with
                     conversations :=
                       st.conversations ++ [⟨st.nextId, a, b, ConvStatus.pending, none⟩],
                     nextId := st.nextId + 1 }
                 ⟨st.nextId, a, b, ConvStatus.accepted, none⟩,
               ⟨st.nextId, a, b, ConvStatus.accepted, none⟩) := by
        unfold resolveConversation
        rw [hfind1]
        dsimp only
        rw [if_pos rfl, if_pos hab]
      exact ⟨_, _, hres2, rfl, by simp [saveConv]⟩
    · have hres2 : resolveConversation
          { st with
              conversations :=
                st.conversations ++ [⟨st.nextId, a, b, ConvStatus.pending, none⟩],
              nextId := st.nextId + 1 } a b =
          .ok ({ st with
                   conversations :=
                     st.conversations ++ [⟨st.nextId, a, b, ConvStatus.pending, none⟩],
                   nextId := st.nextId + 1 },
               ⟨st.nextId, a, b, ConvStatus.pending, none⟩) := by
        unfold resolveConversation
        rw [hfind1]
        dsimp only
        rw [if_pos rfl, if_neg hab]
      exact ⟨_, _, hres2, rfl, rfl⟩
  · have hres3 : resolveConversation
        { st with
            conversations :=
              st.conversations ++ [⟨st.nextId, a, b, ConvStatus.pending, none⟩],
            nextId := st.nextId + 1 } b a =
        .ok (saveConv
               { st with
                   conversations :=
                     st.conversations ++ [⟨st.nextId, a, b, ConvStatus.pending, none⟩],
                   nextId := st.nextId + 1 }
               ⟨st.nextId, a, b, ConvStatus.accepted, none⟩,
             ⟨st.nextId, a, b, ConvStatus.accepted, none⟩) := by
      unfold resolveConversation
      rw [hfind2]
      dsimp only
      rw [if_pos rfl, if_pos rfl]
    exact ⟨_, _, hres3, rfl, by simp [saveConv]⟩

/-- Witness for C3 on the empty store: resolving (1,2), then (1,2)
again and (2,1), all yield conversation id 10 with exactly one
conversation created. -/
theorem C3_resolve_idempotent_witness :
    ∃ st1 c1, resolveConversation stEmpty 1 2 = .ok (st1, c1) ∧
      st1.conversations.length = stEmpty.conversations.length + 1 ∧
      (∃ st2 c2, resolveConversation st1 1 2 = .ok (st2, c2) ∧ c2.id = c1.id ∧
         st2.conversations.length = st1.conversations.length) ∧
      (∃ st3 c3, resolveConversation st1 2 1 = .ok (st3, c3) ∧ c3.id = c1.id ∧
         st3.conversations.length = st1.conversations.length) :=
  C3_resolve_idempotent stEmpty 1 2 rfl

/-! ## Claim C4 -/

/-- Counterexample to C4: at a concrete store and send, a failure raised
by the real-time emit is NOT caught — the overall send fails, and neither
the durable notification record nor the push dispatch is attempted
(the code awaits the three channel actions sequentially with no
try/catch). -/
theorem C4_counterexample :
    (send stEmpty sendAB envSocketFail).result = Except.error socketErr ∧
    (send stEmpty sendAB envSocketFail).notifAttempted = false ∧
    (send stEmpty sendAB envSocketFail).pushAttempted = false :=
  ⟨rfl, rfl, rfl⟩

/-- A successful resolve always leaves a conversation with the returned
id in the store it hands on — whether it reused, transitioned or created
the conversation. -/
theorem resolve_ok_exists (st : St) (a b : Nat) (st1 : St) (conv : Conversation)
    (hres : resolveConversation st a b = .ok (st1, conv)) :
    ∃ x ∈ st1.conversations, x.id = conv.id := by
  unfold resolveConversation at hres
  cases hfind : findConversation st a b with
  | some c =>
      rw [hfind] at hres
      dsimp only at hres
      by_cases hp : c.status = ConvStatus.pending
      · rw [if_pos hp] at hres
        by_cases hq : a = c.userTo
        · rw [if_pos hq] at hres
          injection hres with h
          injection h with h1 h2
          subst h1
          subst h2
          exact exists_id_saveConv st _ _ rfl
            ⟨c, List.mem_of_find?_eq_some hfind, rfl⟩
        · rw [if_neg hq] at hres
          injection hres with h
          injection h with h1 h2
          subst h1
          subst h2
          exact ⟨c, List.mem_of_find?_eq_some hfind, rfl⟩
      · rw [if_neg hp] at hres
        by_cases hr : c.status = ConvStatus.rejected
        · rw [if_pos hr] at hres
          cases hres
        · rw [if_neg hr] at hres
          injection hres with h
          injection h with h1 h2
          subst h1
          subst h2
          exact ⟨c, List.mem_of_find?_eq_some hfind, rfl⟩
  | none =>
      rw [hfind] at hres
      dsimp only at hres
      injection hres with h
      injection h with h1 h2
      subst h1
      subst h2
      exact ⟨_, List.mem_append_right _ (List.mem_singleton.mpr rfl), rfl⟩

/-- Claim C4 (amended): after a successful resolve the message AND the
conversation's `lastMessage` update are persisted, but the three
notification channel actions are sequential and not failure-isolated:
a failure raised by any one of them propagates and fails the overall
send, and prevents the channel actions after it from being attempted —
a socket-emit failure skips the notification record and the push; a
notification-record failure skips the push; a push-transport failure
(nothing follows it) still fails the send, specifically with the push
error whenever the recipient lookup succeeds.  The persisted message and
the saved `lastMessage` pointer survive in every case. -/
theorem C4_fanout_not_isolated (st : St) (p : SendParams) (env : FanoutEnv)
    (st1 : St) (conv : Conversation)
    (hres : resolveConversation st p.userFrom p.userTo = .ok (st1, conv)) :
    (env.socketOk = false →
       (send st p env).result = Except.error socketErr ∧
       (send st p env).notifAttempted = false ∧
       (send st p env).pushAttempted = false) ∧
    (env.socketOk = true → env.notifOk = false →
       (send st p env).result = Except.error notifErr ∧
       (send st p env).notifAttempted = true ∧
       (send st p env).pushAttempted = false) ∧
    (env.socketOk = true → env.notifOk = true → env.pushOk = false →
       (∃ e, (send st p env).result = Except.error e) ∧
       (∀ x, st1.users.find? (fun u => u.id == p.userTo) = some x →
          (send st p env).result = Except.error pushErr)) ∧
    persistedMessage st1 p conv ∈ (send st p env).state.messages ∧
    (send st p env).state.conversations.find? (fun x => x.id == conv.id) =
      some { conv with lastMessage := some (persistedMessage st1 p conv).id } := by
  have hstate := send_state_ok st p env st1 conv hres
  have hmem : persistedMessage st1 p conv ∈ (persistedState st1 p conv).messages := by
    unfold persistedMessage persistedState addMessage saveConv
    dsimp only
    exact List.mem_append_right _ (List.mem_singleton.mpr rfl)
  have hexists := resolve_ok_exists st p.userFrom p.userTo st1 conv hres
  have hlast : (persistedState st1 p conv).conversations.find?
      (fun x => x.id == conv.id) =
      some { conv with lastMessage := some (persistedMessage st1 p conv).id } := by
    unfold persistedMessage persistedState
    exact find?_map_replace
      { conv with
          lastMessage :=
            some ((addMessage st1
              ⟨some p.userFrom, some p.userTo, p.text, p.attachments,
               some conv.id⟩).2.id) }
      ((addMessage st1
          ⟨some p.userFrom, some p.userTo, p.text, p.attachments,
           some conv.id⟩).1.conversations)
      hexists
  refine ⟨?_, ?_, ?_, hstate ▸ hmem, hstate ▸ hlast⟩
  · intro hsock
    unfold send
    rw [hres]
    dsimp only
    rw [hsock]
    exact ⟨rfl, rfl, rfl⟩
  · intro hsock hnotif
    unfold send
    rw [hres]
    dsimp only
    rw [hsock, hnotif]
    exact ⟨rfl, rfl, rfl⟩
  · intro hsock hnotif hpush
    unfold send
    rw [hres]
    dsimp only
    rw [hsock, hnotif, hpush]
    cases hu : (persistedState st1 p conv).users.find? (fun u => u.id == p.userTo) with
    | none =>
        refine ⟨⟨noRecipientErr, rfl⟩, ?_⟩
        intro x hx
        have hx' : (persistedState st1 p conv).users.find?
            (fun u => u.id == p.userTo) = some x := hx
        rw [hu] at hx'
        cases hx'
    | some x0 =>
        exact ⟨⟨pushErr, rfl⟩, fun x hx => rfl⟩

/-- Witness for the amended C4 at a concrete store: each of the three
transports failing in turn makes the send error and skips the channels
after it, while the message and the conversation's `lastMessage` pointer
are persisted. -/
theorem C4_fanout_not_isolated_witness :
    ((send stEmpty sendAB ⟨false, true, true⟩).result = Except.error socketErr ∧
     (send stEmpty sendAB ⟨false, true, true⟩).notifAttempted = false ∧
     (send stEmpty sendAB ⟨false, true, true⟩).pushAttempted = false) ∧
    ((send stEmpty sendAB ⟨true, false, true⟩).result = Except.error notifErr ∧
     (send stEmpty sendAB ⟨true, false, true⟩).notifAttempted = true ∧
     (send stEmpty sendAB ⟨true, false, true⟩).pushAttempted = false) ∧
    (send stEmpty sendAB ⟨true, true, false⟩).result = Except.error pushErr ∧
    persistedMessage
        ⟨[⟨10, 1, 2, ConvStatus.pending, none⟩], [], [alice, bob], 11⟩ sendAB
        ⟨10, 1, 2, ConvStatus.pending, none⟩ ∈
      (send stEmpty sendAB ⟨false, true, true⟩).state.messages ∧
    (send stEmpty sendAB ⟨false, true, true⟩).state.conversations.find?
        (fun x => x.id == (10 : Nat)) =
      some ⟨10, 1, 2, ConvStatus.pending,
        some (persistedMessage
          ⟨[⟨10, 1, 2, ConvStatus.pending, none⟩], [], [alice, bob], 11⟩ sendAB
          ⟨10, 1, 2, ConvStatus.pending, none⟩).id⟩ :=
  ⟨(C4_fanout_not_isolated stEmpty sendAB ⟨false, true, true⟩
      ⟨[⟨10, 1, 2, ConvStatus.pending, none⟩], [], [alice, bob], 11⟩
      ⟨10, 1, 2, ConvStatus.pending, none⟩ rfl).1 rfl,
   (C4_fanout_not_isolated stEmpty sendAB ⟨true, false, true⟩
      ⟨[⟨10, 1, 2, ConvStatus.pending, none⟩], [], [alice, bob], 11⟩
      ⟨10, 1, 2, ConvStatus.pending, none⟩ rfl).2.1 rfl rfl,
   ((C4_fanout_not_isolated stEmpty sendAB ⟨true, true, false⟩
      ⟨[⟨10, 1, 2, ConvStatus.pending, none⟩], [], [alice, bob], 11⟩
      ⟨10, 1, 2, ConvStatus.pending, none⟩ rfl).2.2.1 rfl rfl rfl).2 bob rfl,
   (C4_fanout_not_isolated stEmpty sendAB ⟨false, true, true⟩
      ⟨[⟨10, 1, 2, ConvStatus.pending, none⟩], [], [alice, bob], 11⟩
      ⟨10, 1, 2, ConvStatus.pending, none⟩ rfl).2.2.2.1,
   (C4_fanout_not_isolated stEmpty sendAB ⟨false, true, true⟩
      ⟨[⟨10, 1, 2, ConvStatus.pending, none⟩], [], [alice, bob], 11⟩
      ⟨10, 1, 2, ConvStatus.pending, none⟩ rfl).2.2.2.2⟩

/-! ## Claim C8 -/

/-- Counterexample to C8: a well-formed id matching no row makes
`deleteMessage` fail with code 400 (`"Please enter valid message id!"`),
i.e. InvalidArgument — not NotFound (404, as `updateMessage` uses for the
same situation). -/
theorem C8_counterexample :
    stEmpty.messages.find? (fun m => m.id == 5) = none ∧
    deleteMessage stEmpty (some 5) = Except.error invalidMessageIdErr ∧
    invalidMessageIdErr.code = 400 ∧ invalidMessageIdErr.code ≠ 404 :=
  ⟨rfl, rfl, rfl, by decide⟩

/-- Claim C8 (amended): `deleteMessage` with a missing message id fails
with InvalidArgument (code 400); with a well-formed id matching no row
it also fails with InvalidArgument (code 400, `"Please enter valid
message id!"`) rather than NotFound; with an id matching an existing row
it removes that row (the store shrinks by one) and returns the deleted
record. -/
theorem C8_delete_message (st : St) :
    (deleteMessage st none = Except.error noMessageIdErr ∧ noMessageIdErr.code = 400) ∧
    (∀ i, st.messages.find? (fun m => m.id == i) = none →
       deleteMessage st (some i) = Except.error invalidMessageIdErr ∧
       invalidMessageIdErr.code = 400) ∧
    (∀ i m, st.messages.find? (fun m => m.id == i) = some m →
       deleteMessage st (some i) =
         Except.ok ({ st with messages := st.messages.eraseP (fun x => x.id == i) }, m) ∧
       m ∈ st.messages ∧ m.id = i ∧
       (st.messages.eraseP (fun x => x.id == i)).length + 1 = st.messages.length) := by
  refine ⟨⟨rfl, rfl⟩, ?_, ?_⟩
  · intro i hnone
    constructor
    · unfold deleteMessage
      dsimp only
      rw [hnone]
    · rfl
  · intro i m hfind
    have hmem : m ∈ st.messages := List.mem_of_find?_eq_some hfind
    have hpm : (m.id == i) = true := by simpa using List.find?_some hfind
    refine ⟨?_, hmem, beq_iff_eq.mp hpm, ?_⟩
    · unfold deleteMessage
      dsimp only
      rw [hfind]
    · rw [List.length_eraseP_of_mem hmem hpm]
      exact Nat.succ_pred_eq_of_pos (List.length_pos_of_mem hmem)

/-- Witness for the amended C8 on a concrete store holding one
message. -/
theorem C8_delete_message_witness :
    (deleteMessage stChat none = Except.error noMessageIdErr ∧ noMessageIdErr.code = 400) ∧
    (deleteMessage stChat (some 777) = Except.error invalidMessageIdErr ∧
       invalidMessageIdErr.code = 400) ∧
    (deleteMessage stChat (some 100) =
       Except.ok ({ stChat with
                      messages := stChat.messages.eraseP (fun x => x.id == 100) }, msg1) ∧
     msg1 ∈ stChat.messages ∧ msg1.id = 100 ∧
     (stChat.messages.eraseP (fun x => x.id == 100)).length + 1 = stChat.messages.length) :=
  ⟨(C8_delete_message stChat).1,
   (C8_delete_message stChat).2.1 777 rfl,
   (C8_delete_message stChat).2.2 100 msg1 rfl⟩

/-! ## Claim C9 -/

/-- Counterexample to C9: one input attachment whose storage `path` is
`"uploads/a.png"` and whose `filename` is `"a.png"` is stored with path
`"a.png"` — the stored path is the input's `filename`, not its storage
path, so the claim's path equality fails. -/
theorem C9_counterexample :
    (addMessage stEmpty
       ⟨some 1, some 2, none, some [⟨"uploads/a.png", "a.png", "image/png"⟩], none⟩).2.attachments =
      some [⟨"a.png", "image/png"⟩] ∧
    ("a.png" : String) ≠ "uploads/a.png" :=
  ⟨rfl, by decide⟩

/-- `filterMap` of a conditional is `map` after `filter`. -/
theorem filterMap_attachments (ins : List AttachIn) :
    (ins.filterMap fun a =>
       if a.path.isEmpty then none
       else some (⟨a.filename, a.mimetype⟩ : StoredAttachment)) =
    (ins.filter (fun a => !a.path.isEmpty)).map
      (fun a => (⟨a.filename, a.mimetype⟩ : StoredAttachment)) := by
  induction ins with
  | nil => rfl
  | cons a l ih =>
      by_cases hp : a.path.isEmpty
      · simp [List.filterMap_cons, List.filter_cons, hp, ih]
      · simp [List.filterMap_cons, List.filter_cons, hp, ih]

/-- Claim C9 (amended): the stored attachments list contains exactly one
entry per input attachment carrying a non-empty `path`; each entry's
stored path is that input's `filename` (not its `path`) and its stored
type is the input's `mimetype`; inputs with an empty `path` are dropped,
and absent optional fields (text, attachments, sender) are omitted from
the stored document rather than stored as null. -/
theorem C9_attachment_mapping (st : St) (p : AddMessageParams) :
    (∀ ins, p.attachments = some ins →
       (addMessage st p).2.attachments =
         some ((ins.filter (fun a => !a.path.isEmpty)).map
           (fun a => (⟨a.filename, a.mimetype⟩ : StoredAttachment)))) ∧
    (p.attachments = none → (addMessage st p).2.attachments = none) ∧
    (p.text = none → (addMessage st p).2.text = none) ∧
    (p.userFrom = none → (addMessage st p).2.userFrom = none) := by
  refine ⟨?_, ?_, ?_, ?_⟩
  · intro ins hins
    unfold addMessage
    dsimp only
    rw [hins]
    dsimp only
    rw [filterMap_attachments]
  · intro h
    unfold addMessage
    dsimp only
    rw [h]
  · intro h
    unfold addMessage
    dsimp only
    rw [h]
    rfl
  · intro h
    unfold addMessage
    dsimp only
    rw [h]

/-- Witness for the amended C9: two inputs, one with an empty `path`
(dropped) and one kept with its `filename` as the stored path. -/
theorem C9_attachment_mapping_witness :
    (addMessage stEmpty
       ⟨some 1, some 2, none,
        some [⟨"uploads/a.png", "a.png", "image/png"⟩, ⟨"", "b.png", "image/png"⟩],
        none⟩).2.attachments =
      some (([⟨"uploads/a.png", "a.png", "image/png"⟩,
              (⟨"", "b.png", "image/png"⟩ : AttachIn)].filter
                (fun a => !a.path.isEmpty)).map
        (fun a => (⟨a.filename, a.mimetype⟩ : StoredAttachment))) :=
  (C9_attachment_mapping stEmpty
     ⟨some 1, some 2, none,
      some [⟨"uploads/a.png", "a.png", "image/png"⟩, ⟨"", "b.png", "image/png"⟩],
      none⟩).1
    [⟨"uploads/a.png", "a.png", "image/png"⟩, ⟨"", "b.png", "image/png"⟩] rfl

/-! ## Claim C7 -/

/-- Claim C7: `getMessages` fails iff neither a conversation id nor a
complete (user1,user2) pair is supplied, and the only error it raises is
the InvalidArgument `"Please enter conversation id!|||400"`; a
well-addressed query matching zero rows does not fail but returns
`data=[], totalCount=0, totalPages=0`. -/
theorem C7_addressing (st : St) (p : GetMessagesParams) :
    ((∃ e, getMessages st p = Except.error e) ↔
       (p.conversation = none ∧ (p.user1 = none ∨ p.user2 = none))) ∧
    (∀ e, getMessages st p = Except.error e → e = noConversationErr) ∧
    (∀ q, queryOf p = some q → st.messages.filter q = [] →
       getMessages st p = Except.ok ⟨[], 0, 0⟩) := by
  have hqiff : (queryOf p = none) ↔
      (p.conversation = none ∧ (p.user1 = none ∨ p.user2 = none)) := by
    rcases p with ⟨co, u1, u2, pg, lim⟩
    cases co <;> cases u1 <;> cases u2 <;> simp [queryOf]
  have herr : ∀ e, getMessages st p = Except.error e →
      queryOf p = none ∧ e = noConversationErr := by
    intro e he
    unfold getMessages at he
    cases hqo : queryOf p with
    | none =>
        rw [hqo] at he
        dsimp only at he
        exact ⟨rfl, (Except.error.inj he).symm⟩
    | some q =>
        rw [hqo] at he
        dsimp only at he
        split at he <;> cases he
  have hok : queryOf p = none → getMessages st p = Except.error noConversationErr := by
    intro h
    unfold getMessages
    rw [h]
  refine ⟨?_, fun e he => (herr e he).2, ?_⟩
  · constructor
    · rintro ⟨e, he⟩
      exact hqiff.mp (herr e he).1
    · intro h
      exact ⟨noConversationErr, hok (hqiff.mpr h)⟩
  · intro q hq0 hfil
    unfold getMessages
    rw [hq0]
    dsimp only
    rw [hfil]
    simp

/-- Witness for C7: missing both addressing modes errors on a concrete
store; a pair-addressed query matching no message returns the empty
paged result. -/
theorem C7_addressing_witness :
    (∃ e, getMessages stChat ⟨none, none, some 1, 3, 4⟩ = Except.error e) ∧
    getMessages stChat ⟨none, some 7, some 8, 0, 0⟩ = Except.ok ⟨[], 0, 0⟩ :=
  ⟨(C7_addressing stChat ⟨none, none, some 1, 3, 4⟩).1.mpr ⟨rfl, Or.inl rfl⟩,
   (C7_addressing stChat ⟨none, some 7, some 8, 0, 0⟩).2.2 _ rfl rfl⟩

/-! ## Claim C6 -/

/-- Claim C6: for a conversation-addressed `getMessages` with 1-indexed
page `pg` and limit `lim`, the matching messages are sorted by creation
time descending, the returned data is the slice skipping `(pg-1)*lim`
rows and taking at most `lim`, `totalCount` is the full match count and
`totalPages = ceil(totalCount / lim)`; a page beyond the last returns
`data=[]` with `totalCount`/`totalPages` identical to those of page 1. -/
theorem C6_pagination (st : St) (cid pg lim : Nat) (hp : 1 ≤ pg) (hl : 1 ≤ lim)
    (r : PagedMessages)
    (hok : getMessages st ⟨some cid, none, none, pg, lim⟩ = Except.ok r) :
    List.Sorted laterFirst
      (List.insertionSort laterFirst
        (st.messages.filter (fun m => m.conversation == some cid))) ∧
    r.data =
      (((List.insertionSort laterFirst
           (st.messages.filter (fun m => m.conversation == some cid))).map
          stripMessage).drop ((pg - 1) * lim)).take lim ∧
    r.data.length ≤ lim ∧
    r.totalCount = (st.messages.filter (fun m => m.conversation == some cid)).length ∧
    r.totalPages = ceilDiv r.totalCount lim ∧
    ((st.messages.filter (fun m => m.conversation == some cid)).length ≤ (pg - 1) * lim →
       r.data = [] ∧
       ∀ r1, getMessages st ⟨some cid, none, none, 1, lim⟩ = Except.ok r1 →
         r1.totalCount = r.totalCount ∧ r1.totalPages = r.totalPages) := by
  have hL : effLimit lim = lim := if_neg (by omega)
  have hP : effPage pg = pg - 1 := if_neg (by omega)
  have hsorted := List.sorted_insertionSort laterFirst
    (st.messages.filter (fun m => m.conversation == some cid))
  have hlen :
      ((List.insertionSort laterFirst
          (st.messages.filter (fun m => m.conversation == some cid))).map
        stripMessage).length =
      (st.messages.filter (fun m => m.conversation == some cid)).length := by
    rw [List.length_map]
    exact (List.perm_insertionSort laterFirst _).length_eq
  unfold getMessages at hok
  dsimp only [queryOf] at hok
  rw [hL, hP] at hok
  by_cases hz :
      ((List.insertionSort laterFirst
          (st.messages.filter (fun m => m.conversation == some cid))).map
        stripMessage).length = 0
  · rw [if_pos hz] at hok
    have hr : r = ⟨[], 0, 0⟩ := (Except.ok.inj hok).symm
    subst hr
    have hnil :
        (List.insertionSort laterFirst
            (st.messages.filter (fun m => m.conversation == some cid))).map
          stripMessage = [] := List.eq_nil_of_length_eq_zero hz
    refine ⟨hsorted, by rw [hnil]; simp, by simp, ?_, ?_, ?_⟩
    · rw [← hlen, hz]
    · show (0 : Nat) = ceilDiv 0 lim
      unfold ceilDiv
      exact (Nat.div_eq_of_lt (by omega)).symm
    · intro _
      refine ⟨rfl, ?_⟩
      intro r1 hok1
      unfold getMessages at hok1
      dsimp only [queryOf] at hok1
      rw [if_pos hz] at hok1
      have hr1 : r1 = ⟨[], 0, 0⟩ := (Except.ok.inj hok1).symm
      subst hr1
      exact ⟨rfl, rfl⟩
  · rw [if_neg hz] at hok
    have hr : r = ⟨_, _, _⟩ := (Except.ok.inj hok).symm
    subst hr
    refine ⟨hsorted, rfl, List.length_take_le _ _, hlen, rfl, ?_⟩
    intro hpast
    have hdrop :
        (((List.insertionSort laterFirst
             (st.messages.filter (fun m => m.conversation == some cid))).map
            stripMessage).drop ((pg - 1) * lim)) = [] :=
      List.drop_eq_nil_of_le (by omega)
    refine ⟨by rw [hdrop]; simp, ?_⟩
    intro r1 hok1
    unfold getMessages at hok1
    dsimp only [queryOf] at hok1
    rw [hL, if_neg hz] at hok1
    have hr1 : r1 = ⟨_, _, _⟩ := (Except.ok.inj hok1).symm
    subst hr1
    exact ⟨rfl, rfl⟩

/-- Witness for C6 on a concrete two-message conversation with page 2
and limit 1. -/
theorem C6_pagination_witness :
    List.Sorted laterFirst
      (List.insertionSort laterFirst
        (stChat.messages.filter (fun m => m.conversation == some 0))) ∧
    (⟨[stripMessage msg1], 2, 2⟩ : PagedMessages).data =
      (((List.insertionSort laterFirst
           (stChat.messages.filter (fun m => m.conversation == some 0))).map
          stripMessage).drop ((2 - 1) * 1)).take 1 ∧
    (⟨[stripMessage msg1], 2, 2⟩ : PagedMessages).data.length ≤ 1 ∧
    (⟨[stripMessage msg1], 2, 2⟩ : PagedMessages).totalCount =
      (stChat.messages.filter (fun m => m.conversation == some 0)).length ∧
    (⟨[stripMessage msg1], 2, 2⟩ : PagedMessages).totalPages =
      ceilDiv (⟨[stripMessage msg1], 2, 2⟩ : PagedMessages).totalCount 1 ∧
    ((stChat.messages.filter (fun m => m.conversation == some 0)).length ≤ (2 - 1) * 1 →
       (⟨[stripMessage msg1], 2, 2⟩ : PagedMessages).data = [] ∧
       ∀ r1, getMessages stChat ⟨some 0, none, none, 1, 1⟩ = Except.ok r1 →
         r1.totalCount = (⟨[stripMessage msg1], 2, 2⟩ : PagedMessages).totalCount ∧
         r1.totalPages = (⟨[stripMessage msg1], 2, 2⟩ : PagedMessages).totalPages) :=
  C6_pagination stChat 0 2 1 (by decide) (by decide) ⟨[stripMessage msg1], 2, 2⟩ rfl

/-! ## Claim C5 -/

/-- Every row produced by the `getConversations` pipeline comes from a
matched conversation with a resolvable `lastMessage` and a peer document
that passes the keyword filter, and carries exactly the projected
fields. -/
theorem mem_convEntries (st : St) (user : Option Nat) (kw : String) (e : ConvEntry)
    (he : e ∈ convEntries st user kw) :
    ∃ c ∈ matchedConvs st user, ∃ m, resolvedLast st c = some m ∧
      ∃ x ∈ st.users, x.id = peerOf user c ∧ nameMatches kw x.name = true ∧
        peerPasses st user kw c = true ∧
        e = ⟨c.id, peerOf user c, x.name, x.image, projLastMessage m⟩ := by
  unfold convEntries at he
  obtain ⟨pr, hpr, hef⟩ := List.mem_filterMap.mp he
  have hpr' : pr ∈ withLastMessage st (matchedConvs st user) :=
    (List.perm_insertionSort lastLaterFirst _).mem_iff.mp hpr
  obtain ⟨c, hc, hcm⟩ := List.mem_filterMap.mp hpr'
  cases hr : resolvedLast st c with
  | none => rw [hr] at hcm; cases hcm
  | some m =>
      rw [hr] at hcm
      simp only [Option.map_some'] at hcm
      have hpr2 : pr = (c, projLastMessage m) := (Option.some.inj hcm).symm
      subst hpr2
      unfold entryFor at hef
      cases hu : st.users.find? (fun x => x.id == peerOf user c) with
      | none => rw [hu] at hef; cases hef
      | some x =>
          rw [hu] at hef
          dsimp only at hef
          by_cases hn : nameMatches kw x.name = true
          · rw [if_pos hn] at hef
            have hx2 : x.id = peerOf user c := by
              have := List.find?_some hu
              simpa using this
            refine ⟨c, hc, m, hr, x, List.mem_of_find?_eq_some hu, hx2, hn, ?_,
              (Option.some.inj hef).symm⟩
            unfold peerPasses
            rw [hu]
            exact hn
          · rw [if_neg hn] at hef; cases hef

/-- Claim C5: every conversation listed by `getConversations(user=u)`
shows the *other* participant — `userFrom` when the caller is the stored
`userTo`, else `userTo` — projected to the peer's name and image (the
peer passing the case-insensitive keyword filter), and its `lastMessage`
pointer resolves; a conversation whose last message does not resolve or
whose peer is missing/fails the filter contributes to neither `data` nor
`totalCount`. -/
theorem C5_peer_projection (st : St) (u : Nat) (qq : Option String) (pg lim : Nat)
    (r : PagedConversations)
    (hids : (st.conversations.map (fun c => c.id)).Nodup)
    (hok : getConversations st ⟨some u, qq, pg, lim⟩ = Except.ok r) :
    (∀ e ∈ r.data,
       ∃ c ∈ st.conversations,
         e.convId = c.id ∧
         e.userId = (if c.userTo = u then c.userFrom else c.userTo) ∧
         (∃ peer ∈ st.users, peer.id = e.userId ∧ e.userName = peer.name ∧
            e.userImage = peer.image ∧ nameMatches (kwOf qq) peer.name = true) ∧
         (resolvedLast st c).isSome) ∧
    r.totalCount = (convEntries st (some u) (kwOf qq)).length ∧
    (∀ c ∈ st.conversations,
       (resolvedLast st c = none ∨ peerPasses st (some u) (kwOf qq) c = false) →
       (∀ e ∈ r.data, e.convId ≠ c.id) ∧
       (∀ e ∈ convEntries st (some u) (kwOf qq), e.convId ≠ c.id)) := by
  have hdata : ∀ e ∈ r.data, e ∈ convEntries st (some u) (kwOf qq) := by
    unfold getConversations at hok
    dsimp only at hok
    split at hok
    · have hr0 : r = ⟨[], 0, 0⟩ := (Except.ok.inj hok).symm
      subst hr0
      intro e he
      cases he
    · have hr0 : r = ⟨_, _, _⟩ := (Except.ok.inj hok).symm
      subst hr0
      intro e he
      exact List.mem_of_mem_drop (List.mem_of_mem_take he)
  have hcount : r.totalCount = (convEntries st (some u) (kwOf qq)).length := by
    unfold getConversations at hok
    dsimp only at hok
    by_cases hz : (convEntries st (some u) (kwOf qq)).length = 0
    · rw [if_pos hz] at hok
      have hr0 : r = ⟨[], 0, 0⟩ := (Except.ok.inj hok).symm
      subst hr0
      exact hz.symm
    · rw [if_neg hz] at hok
      have hr0 : r = ⟨_, _, _⟩ := (Except.ok.inj hok).symm
      subst hr0
      rfl
  have hchar : ∀ e ∈ convEntries st (some u) (kwOf qq),
      ∃ c ∈ st.conversations,
        e.convId = c.id ∧
        e.userId = (if c.userTo = u then c.userFrom else c.userTo) ∧
        (∃ peer ∈ st.users, peer.id = e.userId ∧ e.userName = peer.name ∧
           e.userImage = peer.image ∧ nameMatches (kwOf qq) peer.name = true) ∧
        (resolvedLast st c).isSome ∧ peerPasses st (some u) (kwOf qq) c = true := by
    intro e he
    obtain ⟨c, hc, m, hr, x, hxmem, hxid, hn, hpass, hee⟩ :=
      mem_convEntries st (some u) (kwOf qq) e he
    have hcmem : c ∈ st.conversations := List.mem_of_mem_filter hc
    subst hee
    exact ⟨c, hcmem, rfl, rfl, ⟨x, hxmem, hxid, rfl, rfl, hn⟩, by rw [hr]; rfl, hpass⟩
  refine ⟨?_, hcount, ?_⟩
  · intro e he
    obtain ⟨c, hcmem, h1, h2, h3, h4, _⟩ := hchar e (hdata e he)
    exact ⟨c, hcmem, h1, h2, h3, h4⟩
  · intro c hcmem hbad
    have hnot : ∀ e ∈ convEntries st (some u) (kwOf qq), e.convId ≠ c.id := by
      intro e he heq
      obtain ⟨c2, hc2mem, h1, _, _, h4, h5⟩ := hchar e he
      have hid : c2.id = c.id := h1 ▸ heq
      have hc2c : c2 = c := List.inj_on_of_nodup_map hids hc2mem hcmem hid
      subst hc2c
      rcases hbad with hb | hb
      · rw [hb] at h4
        cases h4
      · rw [hb] at h5
        cases h5
    exact ⟨fun e he => hnot e (hdata e he), hnot⟩

/-- Witness for C5: user 2 lists conversations in the concrete chat
store; the single entry shows peer user 1 (Alice) with name and image,
and exclusions hold vacuously. -/
theorem C5_peer_projection_witness :
    (∀ e ∈ (⟨[⟨0, 1, "Alice", "alice.png", ⟨101, some "hello", some 2, 6, none⟩⟩], 1, 1⟩ :
        PagedConversations).data,
       ∃ c ∈ stChat.conversations,
         e.convId = c.id ∧
         e.userId = (if c.userTo = 2 then c.userFrom else c.userTo) ∧
         (∃ peer ∈ stChat.users, peer.id = e.userId ∧ e.userName = peer.name ∧
            e.userImage = peer.image ∧ nameMatches (kwOf none) peer.name = true) ∧
         (resolvedLast stChat c).isSome) ∧
    (⟨[⟨0, 1, "Alice", "alice.png", ⟨101, some "hello", some 2, 6, none⟩⟩], 1, 1⟩ :
        PagedConversations).totalCount =
      (convEntries stChat (some 2) (kwOf none)).length ∧
    (∀ c ∈ stChat.conversations,
       (resolvedLast stChat c = none ∨ peerPasses stChat (some 2) (kwOf none) c = false) →
       (∀ e ∈ (⟨[⟨0, 1, "Alice", "alice.png", ⟨101, some "hello", some 2, 6, none⟩⟩], 1, 1⟩ :
           PagedConversations).data, e.convId ≠ c.id) ∧
       (∀ e ∈ convEntries stChat (some 2) (kwOf none), e.convId ≠ c.id)) :=
  C5_peer_projection stChat 2 none 0 0
    ⟨[⟨0, 1, "Alice", "alice.png", ⟨101, some "hello", some 2, 6, none⟩⟩], 1, 1⟩
    (by decide) rfl

/-! ## Claim C10 -/

/-- The empty keyword (empty regex) matches every name. -/
theorem nameMatches_empty (s : String) : nameMatches "" s = true := by
  show isInfixB [] (lowerChars s) = true
  cases lowerChars s with
  | nil => rfl
  | cons a t => rfl

/-- A `filterMap` whose function is `some` on every element preserves
the length. -/
theorem length_filterMap_all_some {α β : Type} (f : α → Option β) :
    ∀ l : List α, (∀ a ∈ l, (f a).isSome) → (l.filterMap f).length = l.length
  | [], _ => rfl
  | a :: l, h => by
    have ha := h a (List.mem_cons_self a l)
    cases hfa : f a with
    | none => rw [hfa] at ha; cases ha
    | some b =>
        simp only [List.filterMap_cons, hfa, List.length_cons]
        rw [length_filterMap_all_some f l (fun x hx => h x (List.mem_cons_of_mem a hx))]

/-- Claim C10: when no `user` argument is supplied, `getConversations`
does not fail — the participant filter is simply omitted, so (here with
no keyword and every conversation resolvable) the page and `totalCount`
are drawn from every conversation in the store, whoever participates:
`totalCount` equals the total number of stored conversations. -/
theorem C10_missing_user (st : St) (pg lim : Nat)
    (h : ∀ c ∈ st.conversations,
       (resolvedLast st c).isSome ∧
       (st.users.find? (fun x => x.id == c.userTo)).isSome) :
    ∃ r, getConversations st ⟨none, none, pg, lim⟩ = Except.ok r ∧
      r.totalCount = st.conversations.length := by
  have hA : (withLastMessage st st.conversations).length = st.conversations.length := by
    apply length_filterMap_all_some
    intro c hc
    cases hr : resolvedLast st c with
    | none =>
        have := (h c hc).1
        rw [hr] at this
        cases this
    | some m => rfl
  have hall : ∀ pr ∈ List.insertionSort lastLaterFirst
      (withLastMessage st (matchedConvs st none)),
      (entryFor st none (kwOf none) pr.1 pr.2).isSome := by
    intro pr hpr
    have hpr' : pr ∈ withLastMessage st st.conversations :=
      (List.perm_insertionSort lastLaterFirst _).mem_iff.mp hpr
    obtain ⟨c, hc, hcm⟩ := List.mem_filterMap.mp hpr'
    cases hr : resolvedLast st c with
    | none => rw [hr] at hcm; cases hcm
    | some m =>
        rw [hr] at hcm
        simp only [Option.map_some'] at hcm
        have hpr2 : pr = (c, projLastMessage m) := (Option.some.inj hcm).symm
        subst hpr2
        obtain ⟨x, hx⟩ := Option.isSome_iff_exists.mp (h c hc).2
        unfold entryFor
        have hpeer : peerOf none c = c.userTo := rfl
        rw [hpeer, hx]
        dsimp only
        rw [if_pos (show nameMatches (kwOf none) x.name = true from
          nameMatches_empty x.name)]
        rfl
  have hlen : (convEntries st none (kwOf none)).length = st.conversations.length := by
    unfold convEntries
    rw [length_filterMap_all_some _ _ hall]
    rw [(List.perm_insertionSort lastLaterFirst _).length_eq]
    exact hA
  by_cases hz : (convEntries st none (kwOf none)).length = 0
  · refine ⟨⟨[], 0, 0⟩, ?_, ?_⟩
    · unfold getConversations
      dsimp only
      rw [if_pos hz]
    · show (0 : Nat) = st.conversations.length
      rw [← hlen]
      exact hz.symm
  · refine ⟨⟨((convEntries st none (kwOf none)).drop
        (effPage pg * effLimit lim)).take (effLimit lim),
      (convEntries st none (kwOf none)).length,
      ceilDiv (convEntries st none (kwOf none)).length (effLimit lim)⟩, ?_, hlen⟩
    unfold getConversations
    dsimp only
    rw [if_neg hz]

/-- Witness for C10: the store with two conversations over disjoint
pairs; with no `user` supplied, both are counted. -/
theorem C10_missing_user_witness :
    ∃ r, getConversations stMulti ⟨none, none, 0, 0⟩ = Except.ok r ∧
      r.totalCount = stMulti.conversations.length :=
  C10_missing_user stMulti 0 0 (by decide)

end Messages
